import Mathlib

/-!
Verification development for the Songbook sheet-music reader, a browser
application that imports PDF scores, stores them in an IndexedDB-backed
store, and organizes them into playlists.

The data layer is embedded shallowly:

* `SheetMusic`, `Playlist`, `HydratedPlaylist` mirror the record shapes of
  the TypeScript interfaces.
* `Store` models the IndexedDB database with its two object stores
  (`sheetMusic` and `playlists`), each keyed by `id`; `put` is an upsert,
  `delete` drops by key, `getAll` returns the records.
* `AppState` bundles the React component state of the App component
  (`view`, `currentFile`, `allMusic`, `playlists`, `isModalOpen`) with the
  store; each event handler becomes a state transformer.
* The clock (`Date.now()`) and the random source (`Math.random()`, as the
  string it interpolates into the id template) are explicit parameters,
  since id generation reads them from the environment.
* The PDF conversion pipeline (pdf.js rendering to data URLs) is a
  parameter of type `Except String (List String)`: either the ordered list
  of rendered page images or the thrown error message.

JavaScript string operations (`trim`, `toLowerCase`, `endsWith`,
`includes`, the `replace(/\.pdf$/i, "")` call) are embedded as structural
functions over the character list so that every definition evaluates by
kernel reduction.
-/

namespace Songbook

/-- One imported score: the `SheetMusic` interface from the source. -/
structure SheetMusic where
  id : String
  name : String
  pages : List String
  deriving DecidableEq

/-- A playlist record: the `Playlist` interface from the source. -/
structure Playlist where
  id : String
  name : String
  itemIds : List String
  deriving DecidableEq

/-- A playlist with its member ids resolved to items: `HydratedPlaylist`. -/
structure HydratedPlaylist where
  id : String
  name : String
  items : List SheetMusic
  deriving DecidableEq

/-- The IndexedDB database `sheet-music-db` with its two object stores. -/
structure Store where
  sheetMusic : List SheetMusic
  playlists : List Playlist
  deriving DecidableEq

/-- IndexedDB `put`: upsert keyed by the record key; an existing record
with the same key is overwritten in place, otherwise the record is added. -/
def upsert {α : Type} (key : α → String) : List α → α → List α
  | [], v => [v]
  | x :: xs, v => if key x = key v then v :: xs else x :: upsert key xs v

/-- `db.saveSheetMusic`: `put` into the `sheetMusic` object store. -/
def saveSheetMusic (m : SheetMusic) (st : Store) : Store :=
  { st with sheetMusic := upsert SheetMusic.id st.sheetMusic m }

/-- `db.getAllSheetMusic`: all records of the `sheetMusic` store. -/
def getAllSheetMusic (st : Store) : List SheetMusic :=
  st.sheetMusic

/-- `db.deleteSheetMusic`: delete by key from the `sheetMusic` store. -/
def deleteSheetMusic (i : String) (st : Store) : Store :=
  { st with sheetMusic := st.sheetMusic.filter (fun m => !(m.id == i)) }

/-- `db.savePlaylist`: `put` into the `playlists` object store. -/
def savePlaylist (p : Playlist) (st : Store) : Store :=
  { st with playlists := upsert Playlist.id st.playlists p }

/-- `db.getAllPlaylists`: all records of the `playlists` store. -/
def getAllPlaylists (st : Store) : List Playlist :=
  st.playlists

/-- `db.deletePlaylist`: delete by key from the `playlists` store. -/
def deletePlaylist (i : String) (st : Store) : Store :=
  { st with playlists := st.playlists.filter (fun p => !(p.id == i)) }

/-- The two screens of the App component. -/
inductive View
  | playlists
  | viewer
  deriving DecidableEq

/-- The App component state together with the persistent store. -/
structure AppState where
  view : View
  currentFile : Option SheetMusic
  allMusic : List SheetMusic
  playlists : List Playlist
  isModalOpen : Bool
  store : Store
  deriving DecidableEq

/-- The initial `loadData` effect: read both collections from the store
into the in-memory state. -/
def loadAll (st : Store) (s : AppState) : AppState :=
  { s with allMusic := getAllSheetMusic st, playlists := getAllPlaylists st }

/-- JavaScript `toLowerCase`, character by character. -/
def jsToLower (s : String) : String :=
  ⟨s.data.map Char.toLower⟩

/-- JavaScript `endsWith`. -/
def jsEndsWith (s suffix : String) : Bool :=
  suffix.data.isSuffixOf s.data

/-- Substring search on character lists, used for JavaScript `includes`. -/
def listContainsSub (needle : List Char) : List Char → Bool
  | [] => needle.isEmpty
  | c :: t => needle.isPrefixOf (c :: t) || listContainsSub needle t

/-- JavaScript `includes` (substring containment). -/
def jsIncludes (s sub : String) : Bool :=
  listContainsSub sub.data s.data

/-- JavaScript `trim`: strip leading and trailing whitespace. -/
def jsTrim (s : String) : String :=
  ⟨((s.data.dropWhile Char.isWhitespace).reverse.dropWhile Char.isWhitespace).reverse⟩

/-- The item id template `file-(Date.now())-(Math.random())`, with the
clock value and the decimal rendering of the random draw as parameters. -/
def genFileId (t : Nat) (r : String) : String :=
  "file-" ++ Nat.repr t ++ "-" ++ r

/-- The playlist id template `pl-(Date.now())`. -/
def genPlaylistId (t : Nat) : String :=
  "pl-" ++ Nat.repr t

/-- `file.name.replace(/\.pdf$/i, "")`: strip one trailing `.pdf`
extension, case-insensitively. -/
def stripPdfExt (name : String) : String :=
  if jsEndsWith (jsToLower name) ".pdf" then ⟨name.data.take (name.data.length - 4)⟩
  else name

/-- The name and MIME type of the file picked in the file input. -/
structure FileInfo where
  name : String
  type : String
  deriving DecidableEq

/-- The acceptance test of `handleFileSelect`:
`file.type.includes("pdf") or file.name.toLowerCase().endsWith(".pdf")`. -/
def isPdfFile (f : FileInfo) : Bool :=
  jsIncludes f.type "pdf" || jsEndsWith (jsToLower f.name) ".pdf"

/-- How a `handleFileSelect` call ended. -/
inductive ImportOutcome
  | noFile
  | notPdf
  | conversionFailed (msg : String)
  | imported
  deriving DecidableEq

/-- `handleFileSelect`: check the file, run the conversion pipeline, and on
success build the new `SheetMusic` record, persist it, append it to the
in-memory library, select it and switch to the viewer.  A conversion
failure is caught and reported; no state is touched on any failure path. -/
def handleFileSelect (file : Option FileInfo) (conv : Except String (List String))
    (t : Nat) (r : String) (s : AppState) : AppState × ImportOutcome :=
  match file with
  | none => (s, ImportOutcome.noFile)
  | some f =>
    if !(isPdfFile f) then (s, ImportOutcome.notPdf)
    else
      match conv with
      | Except.error e => (s, ImportOutcome.conversionFailed e)
      | Except.ok pages =>
        let newFile : SheetMusic :=
          { id := genFileId t r, name := stripPdfExt f.name, pages := pages }
        ({ s with store := saveSheetMusic newFile s.store,
                  allMusic := s.allMusic ++ [newFile],
                  currentFile := some newFile,
                  view := View.viewer }, ImportOutcome.imported)

/-- `handleCreatePlaylist` in the App component: build the playlist with a
clock-derived id and empty membership, persist it, append it in memory. -/
def handleCreatePlaylist (name : String) (t : Nat) (s : AppState) : AppState :=
  let newPlaylist : Playlist := { id := genPlaylistId t, name := name, itemIds := [] }
  { s with store := savePlaylist newPlaylist s.store,
           playlists := s.playlists ++ [newPlaylist] }

/-- `handleCreatePlaylist` in the PlaylistView component: only a name that
is nonempty after trimming is submitted (trimmed) to the App handler. -/
def handleCreatePlaylistClick (input : String) (t : Nat) (s : AppState) : AppState :=
  if jsTrim input = "" then s else handleCreatePlaylist (jsTrim input) t s

/-- `handleDeletePlaylist`: behind the confirmation gate, delete the record
from the store and filter it out of the in-memory list. -/
def handleDeletePlaylist (i : String) (confirmed : Bool) (s : AppState) : AppState :=
  if confirmed then
    { s with store := deletePlaylist i s.store,
             playlists := s.playlists.filter (fun pl => !(pl.id == i)) }
  else s

/-- How a `handleAddToPlaylist` call ended. -/
inductive AddOutcome
  | noCurrentFile
  | playlistNotFound
  | alreadyPresent
  | added
  deriving DecidableEq

/-- `handleAddToPlaylist`: the item id is taken from `currentFile`; a
missing selection or unknown playlist is a no-op, an already present id is
reported, otherwise the id is appended, the playlist persisted and replaced
in memory, and the selection modal closed. -/
def handleAddToPlaylist (playlistId : String) (s : AppState) : AppState × AddOutcome :=
  match s.currentFile with
  | none => (s, AddOutcome.noCurrentFile)
  | some cf =>
    match s.playlists.find? (fun p => p.id == playlistId) with
    | none => (s, AddOutcome.playlistNotFound)
    | some playlist =>
      if playlist.itemIds.contains cf.id then (s, AddOutcome.alreadyPresent)
      else
        let updatedPlaylist := { playlist with itemIds := playlist.itemIds ++ [cf.id] }
        ({ s with store := savePlaylist updatedPlaylist s.store,
                  playlists := s.playlists.map
                    (fun pl => if pl.id == playlistId then updatedPlaylist else pl),
                  isModalOpen := false }, AddOutcome.added)

/-- `handleRemoveFromPlaylist`: an unknown playlist is a no-op; otherwise
every occurrence of the file id is filtered out of `itemIds`, the playlist
persisted and replaced in memory. -/
def handleRemoveFromPlaylist (playlistId fileId : String) (s : AppState) : AppState :=
  match s.playlists.find? (fun p => p.id == playlistId) with
  | none => s
  | some playlist =>
    let updatedPlaylist := { playlist with itemIds := playlist.itemIds.filter (fun i => !(i == fileId)) }
    { s with store := savePlaylist updatedPlaylist s.store,
             playlists := s.playlists.map
               (fun pl => if pl.id == playlistId then updatedPlaylist else pl) }

/-- The lookup built by `new Map(allMusic.map(m => [m.id, m]))`: a later
record with the same id overwrites an earlier one. -/
def musicMapGet (allMusic : List SheetMusic) (i : String) : Option SheetMusic :=
  allMusic.foldl (fun acc m => if m.id == i then some m else acc) none

/-- The `hydratedPlaylists` memo: resolve each membership id through the
lookup and drop unresolved ids, preserving order. -/
def hydratedPlaylists (playlists : List Playlist) (allMusic : List SheetMusic) :
    List HydratedPlaylist :=
  playlists.map fun pl =>
    { id := pl.id, name := pl.name, items := pl.itemIds.filterMap (musicMapGet allMusic) }

/-- Modelled from the spec: `hydrate(playlists, items)` maps each playlist
to a record with the same id and name whose items are obtained by mapping
the `itemIds` through an id-to-item lookup (first match) and dropping the
unresolved ids. -/
def hydrateSpec (playlists : List Playlist) (allMusic : List SheetMusic) :
    List HydratedPlaylist :=
  playlists.map fun pl =>
    { id := pl.id, name := pl.name,
      items := (pl.itemIds.map (fun i => allMusic.find? (fun m => m.id == i))).reduceOption }

/-- A sequence of `handleAddToPlaylist` calls, applied in order. -/
def applyAdds (pids : List String) (s : AppState) : AppState :=
  pids.foldl (fun st pid => (handleAddToPlaylist pid st).1) s

/-- Decimal value of a digit character. -/
def digitVal (c : Char) : Nat :=
  c.toNat - 48

/-- Decode a decimal digit string back to the number it renders. -/
def decodeDigits (l : List Char) : Nat :=
  l.foldl (fun a c => 10 * a + digitVal c) 0


theorem toDigitsCore_append (f : Nat) : ∀ (n : Nat) (ds : List Char),
    Nat.toDigitsCore 10 f n ds = Nat.toDigitsCore 10 f n [] ++ ds := by
  induction f with
  | zero => intro n ds; simp [Nat.toDigitsCore]
  | succ f ih =>
    intro n ds
    simp only [Nat.toDigitsCore]
    by_cases h : n / 10 = 0
    · simp [h]
    · simp only [h, if_false]
      rw [ih (n / 10) (Nat.digitChar (n % 10) :: ds), ih (n / 10) [Nat.digitChar (n % 10)]]
      simp

theorem digitVal_digitChar {k : Nat} (h : k < 10) :
    digitVal (Nat.digitChar k) = k := by
  interval_cases k <;> rfl

theorem digitChar_ne_dash {k : Nat} (h : k < 10) :
    Nat.digitChar k ≠ '-' := by
  interval_cases k <;> decide

theorem decodeDigits_toDigitsCore : ∀ (f n : Nat), n < f →
    decodeDigits (Nat.toDigitsCore 10 f n []) = n := by
  intro f
  induction f with
  | zero => intro n h; omega
  | succ f ih =>
    intro n h
    simp only [Nat.toDigitsCore]
    by_cases h0 : n / 10 = 0
    · have hn : n < 10 := (Nat.div_eq_zero_iff (by norm_num)).1 h0
      have hm : n % 10 = n := Nat.mod_eq_of_lt hn
      simp only [h0, if_true, decodeDigits, List.foldl_cons, List.foldl_nil]
      rw [digitVal_digitChar (Nat.mod_lt n (by norm_num)), hm]
      omega
    · simp only [h0, if_false]
      rw [toDigitsCore_append]
      have hlt : n / 10 < f := by
        have h1 : n / 10 < n := Nat.div_lt_self (by omega) (by norm_num)
        omega
      have hrec := ih (n / 10) hlt
      simp only [decodeDigits] at hrec ⊢
      rw [List.foldl_append, hrec]
      simp only [List.foldl_cons, List.foldl_nil]
      rw [digitVal_digitChar (Nat.mod_lt n (by omega))]
      omega

theorem decodeDigits_repr (n : Nat) : decodeDigits (Nat.repr n).data = n :=
  decodeDigits_toDigitsCore (n + 1) n (Nat.lt_succ_self n)

theorem repr_inj {m n : Nat} (h : Nat.repr m = Nat.repr n) : m = n := by
  have := decodeDigits_repr m
  rw [h, decodeDigits_repr] at this
  omega

theorem dash_not_mem_toDigitsCore (f : Nat) : ∀ (n : Nat) (ds : List Char),
    ('-' ∉ ds) → '-' ∉ Nat.toDigitsCore 10 f n ds := by
  induction f with
  | zero => intro n ds h; simpa [Nat.toDigitsCore] using h
  | succ f ih =>
    intro n ds h
    simp only [Nat.toDigitsCore]
    have hd : Nat.digitChar (n % 10) ≠ '-' := digitChar_ne_dash (Nat.mod_lt n (by omega))
    by_cases h0 : n / 10 = 0
    · simp only [h0, if_true]
      intro hmem
      rcases List.mem_cons.1 hmem with h1 | h1
      · exact hd h1.symm
      · exact h h1
    · simp only [h0, if_false]
      apply ih
      intro hmem
      rcases List.mem_cons.1 hmem with h1 | h1
      · exact hd h1.symm
      · exact h h1

theorem dash_not_mem_repr (n : Nat) : '-' ∉ (Nat.repr n).data :=
  dash_not_mem_toDigitsCore (n + 1) n [] (by simp)

theorem append_dash_inj : ∀ (a₁ b₁ a₂ b₂ : List Char),
    ('-' ∉ a₁) → ('-' ∉ a₂) → a₁ ++ '-' :: b₁ = a₂ ++ '-' :: b₂ →
    a₁ = a₂ ∧ b₁ = b₂ := by
  intro a₁
  induction a₁ with
  | nil =>
    intro b₁ a₂ b₂ h₁ h₂ heq
    cases a₂ with
    | nil => simpa using heq
    | cons c t =>
      exfalso
      simp only [List.nil_append, List.cons_append, List.cons.injEq] at heq
      exact h₂ (heq.1 ▸ List.mem_cons_self c t)
  | cons c t ih =>
    intro b₁ a₂ b₂ h₁ h₂ heq
    cases a₂ with
    | nil =>
      exfalso
      simp only [List.nil_append, List.cons_append, List.cons.injEq] at heq
      exact h₁ (heq.1 ▸ List.mem_cons_self c t)
    | cons c₂ t₂ =>
      simp only [List.cons_append, List.cons.injEq] at heq
      have ht := ih b₁ t₂ b₂ (fun hm => h₁ (List.mem_cons_of_mem c hm))
        (fun hm => h₂ (List.mem_cons_of_mem c₂ hm)) heq.2
      exact ⟨by simp [heq.1, ht.1], ht.2⟩

theorem genPlaylistId_inj {t₁ t₂ : Nat} (h : genPlaylistId t₁ = genPlaylistId t₂) :
    t₁ = t₂ := by
  have hd := congrArg String.data h
  simp only [genPlaylistId, String.data_append] at hd
  have : (Nat.repr t₁).data = (Nat.repr t₂).data := by
    simpa using hd
  have h2 : decodeDigits (Nat.repr t₁).data = decodeDigits (Nat.repr t₂).data := by rw [this]
  rw [decodeDigits_repr, decodeDigits_repr] at h2
  exact h2

theorem genFileId_inj {t₁ t₂ : Nat} {r₁ r₂ : String}
    (h : genFileId t₁ r₁ = genFileId t₂ r₂) : t₁ = t₂ ∧ r₁ = r₂ := by
  have hd : (("file-" ++ Nat.repr t₁ ++ "-") ++ r₁).data
      = (("file-" ++ Nat.repr t₂ ++ "-") ++ r₂).data := by
    simpa [genFileId] using congrArg String.data h
  simp only [String.data_append, List.append_assoc] at hd
  have hd' : (Nat.repr t₁).data ++ '-' :: r₁.data
      = (Nat.repr t₂).data ++ '-' :: r₂.data := by
    simpa using hd
  have hsplit := append_dash_inj _ _ _ _ (dash_not_mem_repr t₁) (dash_not_mem_repr t₂) hd'
  constructor
  · have h2 : decodeDigits (Nat.repr t₁).data = decodeDigits (Nat.repr t₂).data := by
      rw [hsplit.1]
    rw [decodeDigits_repr, decodeDigits_repr] at h2
    exact h2
  · cases r₁ with
    | mk d₁ =>
      cases r₂ with
      | mk d₂ =>
        have hdd : d₁ = d₂ := by simpa using hsplit.2
        rw [hdd]


theorem contains_eq_false_iff {l : List String} {a : String} :
    l.contains a = false ↔ a ∉ l := by
  rw [← Bool.not_eq_true]
  exact not_congr List.elem_iff

theorem contains_eq_true_iff {l : List String} {a : String} :
    l.contains a = true ↔ a ∈ l :=
  List.elem_iff

theorem upsert_self_mem {α : Type} (key : α → String) (l : List α) (v : α) :
    v ∈ upsert key l v := by
  induction l with
  | nil => simp [upsert]
  | cons x xs ih =>
    simp only [upsert]
    by_cases h : key x = key v
    · simp [h]
    · simp only [h, if_false]
      exact List.mem_cons_of_mem x ih

theorem upsert_mem_eq {l : List Playlist} {v : Playlist}
    (hnd : (l.map Playlist.id).Nodup) (hv : v ∈ l) :
    upsert Playlist.id l v = l := by
  induction l with
  | nil => cases hv
  | cons x xs ih =>
    simp only [upsert]
    by_cases h : x.id = v.id
    · have hx : x = v :=
        List.inj_on_of_nodup_map hnd (List.mem_cons_self x xs) hv h
      rw [if_pos h, hx]
    · rw [if_neg h]
      have hv' : v ∈ xs := by
        rcases List.mem_cons.1 hv with h1 | h1
        · exact absurd (h1 ▸ rfl) h
        · exact h1
      rw [ih (by simpa using (List.nodup_cons.1 (by simpa using hnd)).2) hv']

theorem upsert_upsert {α : Type} (key : α → String) (l : List α) (v : α) :
    upsert key (upsert key l v) v = upsert key l v := by
  induction l with
  | nil => simp [upsert]
  | cons x xs ih =>
    simp only [upsert]
    by_cases h : key x = key v
    · simp [upsert, h]
    · simp only [h, if_false, upsert, ih]

theorem find?_map_update {u : Playlist} {pid : String} (hu : (u.id == pid) = true) :
    ∀ (l : List Playlist) (pl : Playlist), l.find? (fun p => p.id == pid) = some pl →
      (l.map (fun p => if p.id == pid then u else p)).find? (fun p => p.id == pid) = some u := by
  intro l
  induction l with
  | nil => intro pl h; simp at h
  | cons x xs ih =>
    intro pl h
    by_cases hx : (x.id == pid) = true
    · have hxif : (if x.id == pid then u else x) = u := by simp [hx]
      simp only [List.map_cons, hxif, List.find?_cons, hu]
    · have hxif : (if x.id == pid then u else x) = x := by simp [hx]
      rw [List.find?_cons] at h
      simp only [hx] at h
      rw [List.map_cons, hxif, List.find?_cons]
      simp only [hx]
      exact ih pl h

theorem map_update_eq_self {l : List Playlist} {pl : Playlist} {pid : String}
    (hnd : (l.map Playlist.id).Nodup)
    (hfind : l.find? (fun p => p.id == pid) = some pl) :
    l.map (fun p => if p.id == pid then pl else p) = l := by
  have hplmem := List.mem_of_find?_eq_some hfind
  have hplid : (pl.id == pid) = true := by
    have := List.find?_some hfind
    simpa using this
  have hcongr : ∀ p ∈ l, (if p.id == pid then pl else p) = p := by
    intro p hp
    by_cases hid : (p.id == pid) = true
    · have hpe : p = pl := by
        apply List.inj_on_of_nodup_map hnd hp hplmem
        rw [beq_iff_eq] at hid hplid
        rw [hid, hplid]
      simp [hid, hpe]
    · simp [hid]
  rw [List.map_congr_left hcongr, List.map_id']


theorem add_preserves_nodup (pid : String) (s : AppState)
    (hinv : ∀ q ∈ s.playlists, q.itemIds.Nodup) :
    ∀ q ∈ (handleAddToPlaylist pid s).1.playlists, q.itemIds.Nodup := by
  cases hcf : s.currentFile with
  | none => simpa [handleAddToPlaylist, hcf] using hinv
  | some cf =>
    cases hfind : s.playlists.find? (fun p => p.id == pid) with
    | none => simpa [handleAddToPlaylist, hcf, hfind] using hinv
    | some pl =>
      by_cases hmem : pl.itemIds.contains cf.id = true
      · simp only [handleAddToPlaylist, hcf, hfind]
        rw [if_pos hmem]
        exact hinv
      · intro q hq
        simp only [handleAddToPlaylist, hcf, hfind] at hq
        rw [if_neg hmem] at hq
        rcases List.mem_map.1 hq with ⟨q₀, hq₀, hmap⟩
        by_cases hid : (q₀.id == pid) = true
        · rw [← hmap, if_pos hid]
          have hpl := hinv pl (List.mem_of_find?_eq_some hfind)
          have hnotin : cf.id ∉ pl.itemIds :=
            contains_eq_false_iff.1 (Bool.eq_false_iff.2 hmem)
          refine List.nodup_append.2 ⟨hpl, List.nodup_singleton cf.id, ?_⟩
          intro a ha hb
          rw [List.mem_singleton] at hb
          exact hnotin (hb ▸ ha)
        · rw [← hmap, if_neg hid]
          exact hinv q₀ hq₀

theorem applyAdds_preserves_nodup (pids : List String) : ∀ (s : AppState),
    (∀ q ∈ s.playlists, q.itemIds.Nodup) →
    ∀ q ∈ (applyAdds pids s).playlists, q.itemIds.Nodup := by
  induction pids with
  | nil => intro s h; simpa [applyAdds] using h
  | cons pid rest ih =>
    intro s h
    have h1 := add_preserves_nodup pid s h
    simpa [applyAdds] using ih ((handleAddToPlaylist pid s).1) h1

theorem foldl_no_match {ms : List SheetMusic} {i : String}
    (h : ∀ m ∈ ms, (m.id == i) = false) (acc : Option SheetMusic) :
    ms.foldl (fun acc m => if m.id == i then some m else acc) acc = acc := by
  induction ms generalizing acc with
  | nil => rfl
  | cons m ms ih =>
    rw [List.foldl_cons, if_neg (by rw [h m (List.mem_cons_self m ms)]; simp)]
    exact ih (fun x hx => h x (List.mem_cons_of_mem m hx)) acc

theorem musicMapGet_eq_find? {ms : List SheetMusic} {i : String}
    (hnd : (ms.map SheetMusic.id).Nodup) :
    musicMapGet ms i = ms.find? (fun m => m.id == i) := by
  induction ms with
  | nil => rfl
  | cons m ms ih =>
    rw [List.find?_cons]
    by_cases hm : (m.id == i) = true
    · simp only [hm]
      have hne : ∀ x ∈ ms, (x.id == i) = false := by
        intro x hx
        have hmm : m.id ∉ ms.map SheetMusic.id := (List.nodup_cons.1 (by simpa using hnd)).1
        rw [Bool.eq_false_iff]
        intro hcx
        rw [beq_iff_eq] at hm hcx
        exact hmm (List.mem_map.2 ⟨x, hx, by rw [hcx, hm]⟩)
      show List.foldl (fun acc m => if m.id == i then some m else acc) none (m :: ms) = some m
      rw [List.foldl_cons, if_pos hm]
      exact foldl_no_match hne (some m)
    · simp only [hm]
      rw [← ih (by simpa using (List.nodup_cons.1 (by simpa using hnd)).2)]
      show List.foldl (fun acc m => if m.id == i then some m else acc) none (m :: ms)
          = musicMapGet ms i
      rw [List.foldl_cons, if_neg hm]
      rfl

theorem hydratedPlaylists_eq_spec {pls : List Playlist} {ms : List SheetMusic}
    (hnd : (ms.map SheetMusic.id).Nodup) :
    hydratedPlaylists pls ms = hydrateSpec pls ms := by
  apply List.map_congr_left
  intro pl _
  simp only [HydratedPlaylist.mk.injEq, true_and]
  rw [List.reduceOption, List.filterMap_map]
  apply congrFun
  apply congrArg
  funext i
  simp only [Function.comp]
  exact musicMapGet_eq_find? hnd


theorem map_update_map_update (pid : String) (l : List Playlist) (u : Playlist)
    (hu : (u.id == pid) = true) :
    (l.map (fun q => if q.id == pid then u else q)).map (fun q => if q.id == pid then u else q)
      = l.map (fun q => if q.id == pid then u else q) := by
  rw [List.map_map]
  apply List.map_congr_left
  intro a _
  simp only [Function.comp]
  by_cases ha : (a.id == pid) = true
  · rw [if_pos ha, if_pos hu]
  · rw [if_neg ha, if_neg ha]

theorem remove_noop (pid fid : String) (s : AppState)
    (hnd : (s.playlists.map Playlist.id).Nodup)
    (hsync : s.store.playlists = s.playlists)
    (habs : ∀ q ∈ s.playlists, q.id = pid → q.itemIds.contains fid = false) :
    handleRemoveFromPlaylist pid fid s = s := by
  cases hfind : s.playlists.find? (fun p => p.id == pid) with
  | none => simp [handleRemoveFromPlaylist, hfind]
  | some pl =>
    have hplmem := List.mem_of_find?_eq_some hfind
    have hplid : pl.id = pid := by
      have := List.find?_some hfind
      simpa [beq_iff_eq] using this
    have hcont : pl.itemIds.contains fid = false := habs pl hplmem hplid
    have hfilter : pl.itemIds.filter (fun i => !(i == fid)) = pl.itemIds := by
      apply List.filter_eq_self.2
      intro a ha
      rw [Bool.not_eq_true']
      rw [Bool.eq_false_iff]
      intro hbeq
      rw [beq_iff_eq] at hbeq
      exact (contains_eq_false_iff.1 hcont) (hbeq ▸ ha)
    have hsave : savePlaylist pl s.store = s.store := by
      simp only [savePlaylist, hsync]
      rw [upsert_mem_eq hnd hplmem, ← hsync]
    simp only [handleRemoveFromPlaylist, hfind, hfilter]
    rw [show ({ id := pl.id, name := pl.name, itemIds := pl.itemIds } : Playlist) = pl from rfl]
    rw [map_update_eq_self hnd hfind, hsave]

theorem remove_updates (pid fid : String) (s : AppState) (pl : Playlist)
    (hfind : s.playlists.find? (fun p => p.id == pid) = some pl) :
    (handleRemoveFromPlaylist pid fid s).playlists.find? (fun p => p.id == pid)
      = some { pl with itemIds := pl.itemIds.filter (fun i => !(i == fid)) }
    ∧ (pl.itemIds.filter (fun i => !(i == fid))).contains fid = false := by
  have hplid : (pl.id == pid) = true := by
    have := List.find?_some hfind
    simpa using this
  have hupdid : (({ pl with itemIds := pl.itemIds.filter (fun i => !(i == fid)) } : Playlist).id == pid) = true := hplid
  constructor
  · simp only [handleRemoveFromPlaylist, hfind]
    exact find?_map_update hupdid s.playlists pl hfind
  · rw [contains_eq_false_iff]
    intro hmem
    have := (List.mem_filter.1 hmem).2
    simp at this

theorem remove_idem (pid fid : String) (s : AppState) :
    handleRemoveFromPlaylist pid fid (handleRemoveFromPlaylist pid fid s)
      = handleRemoveFromPlaylist pid fid s := by
  cases hfind : s.playlists.find? (fun p => p.id == pid) with
  | none =>
    have h1 : handleRemoveFromPlaylist pid fid s = s := by
      simp [handleRemoveFromPlaylist, hfind]
    rw [h1]
    exact h1
  | some pl =>
    have hplid : (pl.id == pid) = true := by
      have := List.find?_some hfind
      simpa using this
    have hupdid : (({ pl with itemIds := pl.itemIds.filter (fun i => !(i == fid)) } : Playlist).id == pid) = true := hplid
    have hfind1 := find?_map_update hupdid s.playlists pl hfind
    have hs1 : handleRemoveFromPlaylist pid fid s
        = { s with store := savePlaylist { pl with itemIds := pl.itemIds.filter (fun i => !(i == fid)) } s.store,
                   playlists := s.playlists.map (fun q => if q.id == pid then { pl with itemIds := pl.itemIds.filter (fun i => !(i == fid)) } else q) } := by
      simp only [handleRemoveFromPlaylist, hfind]
    rw [hs1]
    simp only [handleRemoveFromPlaylist, hfind1]
    have hff : ({ pl with itemIds := pl.itemIds.filter (fun i => !(i == fid)) } : Playlist).itemIds.filter (fun i => !(i == fid))
        = pl.itemIds.filter (fun i => !(i == fid)) := by
      show (pl.itemIds.filter (fun i => !(i == fid))).filter (fun i => !(i == fid))
          = pl.itemIds.filter (fun i => !(i == fid))
      rw [List.filter_filter]
      simp only [Bool.and_self]
    rw [hff]
    simp only [savePlaylist, upsert_upsert]
    rw [map_update_map_update pid s.playlists _ hupdid]

theorem add_second_call (pid : String) (s : AppState) (cf : SheetMusic) (pl : Playlist)
    (hcf : s.currentFile = some cf)
    (hfind : s.playlists.find? (fun p => p.id == pid) = some pl)
    (hmem : pl.itemIds.contains cf.id = false) :
    (handleAddToPlaylist pid s).2 = AddOutcome.added
    ∧ ((handleAddToPlaylist pid s).1.playlists.find? (fun p => p.id == pid)
        = some { pl with itemIds := pl.itemIds ++ [cf.id] })
    ∧ (pl.itemIds ++ [cf.id]).count cf.id = 1
    ∧ handleAddToPlaylist pid ((handleAddToPlaylist pid s).1)
        = ((handleAddToPlaylist pid s).1, AddOutcome.alreadyPresent) := by
  have hmem' : ¬ (pl.itemIds.contains cf.id = true) := by rw [hmem]; simp
  have hplid : (pl.id == pid) = true := by
    have := List.find?_some hfind
    simpa using this
  have hupdid : (({ pl with itemIds := pl.itemIds ++ [cf.id] } : Playlist).id == pid) = true := hplid
  have hs1 : (handleAddToPlaylist pid s).1
      = { s with store := savePlaylist { pl with itemIds := pl.itemIds ++ [cf.id] } s.store,
                 playlists := s.playlists.map (fun q => if q.id == pid then { pl with itemIds := pl.itemIds ++ [cf.id] } else q),
                 isModalOpen := false } := by
    simp only [handleAddToPlaylist, hcf, hfind]
    rw [if_neg hmem']
  have hfind1 := find?_map_update hupdid s.playlists pl hfind
  have hcont : (pl.itemIds ++ [cf.id]).contains cf.id = true :=
    contains_eq_true_iff.2 (List.mem_append_right _ (List.mem_singleton.2 rfl))
  refine ⟨?_, ?_, ?_, ?_⟩
  · simp only [handleAddToPlaylist, hcf, hfind]
    rw [if_neg hmem']
  · rw [hs1]
    exact hfind1
  · rw [List.count_append, List.count_eq_zero.2 (contains_eq_false_iff.1 hmem)]
    simp
  · rw [hs1]
    simp only [handleAddToPlaylist, hcf, hfind1]
    rw [if_pos hcont]


/-- C1: across any sequence of addMember calls a playlist's itemIds never
holds the same id twice; a successful add reports success, and a second
add of the same pair finds the id present exactly once, changes nothing
and reports the already present outcome. -/
theorem addMember_nodup_and_second_call (s : AppState) (pids : List String)
    (cf : SheetMusic) (pid : String) (pl : Playlist)
    (hinv : ∀ q ∈ s.playlists, q.itemIds.Nodup) :
    (∀ q ∈ (applyAdds pids s).playlists, q.itemIds.Nodup)
    ∧ (s.currentFile = some cf →
        s.playlists.find? (fun p => p.id == pid) = some pl →
        pl.itemIds.contains cf.id = false →
        (handleAddToPlaylist pid s).2 = AddOutcome.added
        ∧ ((handleAddToPlaylist pid s).1.playlists.find? (fun p => p.id == pid)
            = some { pl with itemIds := pl.itemIds ++ [cf.id] })
        ∧ (pl.itemIds ++ [cf.id]).count cf.id = 1
        ∧ handleAddToPlaylist pid ((handleAddToPlaylist pid s).1)
            = ((handleAddToPlaylist pid s).1, AddOutcome.alreadyPresent)) :=
  ⟨applyAdds_preserves_nodup pids s hinv,
   fun hcf hfind hmem => add_second_call pid s cf pl hcf hfind hmem⟩

/-- Witness for C1 at a concrete state with one open item and one playlist. -/
theorem addMember_nodup_and_second_call_witness :
    handleAddToPlaylist "p" ((handleAddToPlaylist "p"
        (⟨View.viewer, some ⟨"m1", "A", ["pg"]⟩, [⟨"m1", "A", ["pg"]⟩], [⟨"p", "P", []⟩], true,
          ⟨[⟨"m1", "A", ["pg"]⟩], [⟨"p", "P", []⟩]⟩⟩ : AppState)).1)
      = ((handleAddToPlaylist "p"
        (⟨View.viewer, some ⟨"m1", "A", ["pg"]⟩, [⟨"m1", "A", ["pg"]⟩], [⟨"p", "P", []⟩], true,
          ⟨[⟨"m1", "A", ["pg"]⟩], [⟨"p", "P", []⟩]⟩⟩ : AppState)).1, AddOutcome.alreadyPresent) :=
  ((addMember_nodup_and_second_call
      (⟨View.viewer, some ⟨"m1", "A", ["pg"]⟩, [⟨"m1", "A", ["pg"]⟩], [⟨"p", "P", []⟩], true,
        ⟨[⟨"m1", "A", ["pg"]⟩], [⟨"p", "P", []⟩]⟩⟩ : AppState)
      ["p"] ⟨"m1", "A", ["pg"]⟩ "p" ⟨"p", "P", []⟩
      (by decide)).2 rfl (by decide) (by decide)).2.2.2

/-- C2 counterexample: two create calls in the same clock millisecond
generate the same playlist id, so the in-memory collection can hold a
duplicate id; the claimed unconditional uniqueness fails. -/
theorem createPlaylist_same_tick_id_collision :
    ¬ (((handleCreatePlaylist "B" 5 (handleCreatePlaylist "A" 5
        (⟨View.playlists, none, [], [], false, ⟨[], []⟩⟩ : AppState))).playlists.map
          Playlist.id).Nodup) := by
  decide

/-- C2 amended: a created playlist carries the id rendered from the clock,
and generated ids are distinct whenever the observed environment values
are distinct: distinct clock ticks for playlists, distinct
tick or random rendering for items. -/
theorem generated_ids_inj_of_distinct_env (name : String) (t₁ t₂ : Nat)
    (r₁ r₂ : String) (s : AppState) :
    ((handleCreatePlaylist name t₁ s).playlists
        = s.playlists ++ [{ id := genPlaylistId t₁, name := name, itemIds := [] }])
    ∧ (t₁ ≠ t₂ → genPlaylistId t₁ ≠ genPlaylistId t₂)
    ∧ ((t₁, r₁) ≠ (t₂, r₂) → genFileId t₁ r₁ ≠ genFileId t₂ r₂) := by
  refine ⟨rfl, ?_, ?_⟩
  · intro hne heq
    exact hne (genPlaylistId_inj heq)
  · intro hne heq
    have h2 := genFileId_inj heq
    exact hne (by rw [h2.1, h2.2])

/-- Witness for the amended C2 at concrete environment values. -/
theorem generated_ids_inj_of_distinct_env_witness :
    genPlaylistId 0 ≠ genPlaylistId 1 ∧ genFileId 5 "0.1" ≠ genFileId 5 "0.2" :=
  ⟨(generated_ids_inj_of_distinct_env "x" 0 1 "0.1" "0.2"
      (⟨View.playlists, none, [], [], false, ⟨[], []⟩⟩ : AppState)).2.1 (by decide),
   (generated_ids_inj_of_distinct_env "x" 5 5 "0.1" "0.2"
      (⟨View.playlists, none, [], [], false, ⟨[], []⟩⟩ : AppState)).2.2 (by decide)⟩

/-- C3: when the conversion pipeline throws, the import leaves the whole
application state, library, playlists and store included, exactly as it
was, and on an accepted PDF the error is reported with its message. -/
theorem conversion_failure_leaves_state_unchanged (file : Option FileInfo) (e : String)
    (t : Nat) (r : String) (s : AppState) :
    (handleFileSelect file (Except.error e) t r s).1 = s
    ∧ (∀ f, file = some f → isPdfFile f = true →
        handleFileSelect file (Except.error e) t r s = (s, ImportOutcome.conversionFailed e)) := by
  constructor
  · cases file with
    | none => rfl
    | some f =>
      cases hp : isPdfFile f with
      | false => simp [handleFileSelect, hp]
      | true => simp [handleFileSelect, hp]
  · intro f hf hpdf
    subst hf
    simp [handleFileSelect, hpdf]

/-- Witness for C3 at a concrete PDF file and state. -/
theorem conversion_failure_leaves_state_unchanged_witness :
    handleFileSelect (some ⟨"x.pdf", "application/pdf"⟩) (Except.error "bad xref") 3 "0.5"
        (⟨View.playlists, none, [⟨"m1", "A", ["pg"]⟩], [], false, ⟨[⟨"m1", "A", ["pg"]⟩], []⟩⟩ : AppState)
      = ((⟨View.playlists, none, [⟨"m1", "A", ["pg"]⟩], [], false,
          ⟨[⟨"m1", "A", ["pg"]⟩], []⟩⟩ : AppState), ImportOutcome.conversionFailed "bad xref") :=
  (conversion_failure_leaves_state_unchanged (some ⟨"x.pdf", "application/pdf"⟩) "bad xref" 3 "0.5"
      (⟨View.playlists, none, [⟨"m1", "A", ["pg"]⟩], [], false, ⟨[⟨"m1", "A", ["pg"]⟩], []⟩⟩ : AppState)).2
    ⟨"x.pdf", "application/pdf"⟩ rfl (by decide)

/-- C4: hydration equals the specified pure join for any inputs whose item
ids are collection-unique, and it is harmless on empty collections. -/
theorem hydrate_correct (pls : List Playlist) (ms : List SheetMusic)
    (hnd : (ms.map SheetMusic.id).Nodup) :
    hydratedPlaylists pls ms = hydrateSpec pls ms
    ∧ hydratedPlaylists [] ms = []
    ∧ (∀ hp ∈ hydratedPlaylists pls [], hp.items = []) := by
  refine ⟨hydratedPlaylists_eq_spec hnd, rfl, ?_⟩
  intro hp hmem
  rcases List.mem_map.1 hmem with ⟨pl, _, hmap⟩
  rw [← hmap]
  apply List.filterMap_eq_nil_iff.2
  intro a _
  rfl

/-- Witness for C4 at concrete collections with a dangling reference. -/
theorem hydrate_correct_witness :
    hydratedPlaylists [⟨"p", "P", ["m1", "gone"]⟩] [⟨"m1", "A", ["pg"]⟩]
      = hydrateSpec [⟨"p", "P", ["m1", "gone"]⟩] [⟨"m1", "A", ["pg"]⟩] :=
  (hydrate_correct [⟨"p", "P", ["m1", "gone"]⟩] [⟨"m1", "A", ["pg"]⟩] (by decide)).1

/-- C5: submitting a whitespace-only playlist name is a silent no-op: the
state is unchanged, so the playlist count and the store are unchanged. -/
theorem createPlaylist_whitespace_noop (input : String) (t : Nat) (s : AppState)
    (h : jsTrim input = "") :
    handleCreatePlaylistClick input t s = s
    ∧ (handleCreatePlaylistClick input t s).playlists.length = s.playlists.length
    ∧ (handleCreatePlaylistClick input t s).store = s.store := by
  have h1 : handleCreatePlaylistClick input t s = s := by
    simp [handleCreatePlaylistClick, h]
  exact ⟨h1, by rw [h1], by rw [h1]⟩

/-- Witness for C5 at the three-space name. -/
theorem createPlaylist_whitespace_noop_witness :
    handleCreatePlaylistClick "   " 7
        (⟨View.playlists, none, [], [⟨"p", "P", []⟩], false, ⟨[], [⟨"p", "P", []⟩]⟩⟩ : AppState)
      = (⟨View.playlists, none, [], [⟨"p", "P", []⟩], false, ⟨[], [⟨"p", "P", []⟩]⟩⟩ : AppState) :=
  (createPlaylist_whitespace_noop "   " 7
      (⟨View.playlists, none, [], [⟨"p", "P", []⟩], false, ⟨[], [⟨"p", "P", []⟩]⟩⟩ : AppState)
      (by decide)).1

/-- C6 counterexample: two imports of the same file that observe the same
clock tick and the same random rendering produce two items with the same
id, so the claimed unconditional distinctness fails. -/
theorem importItem_same_env_id_collision :
    ¬ ((((handleFileSelect (some ⟨"Sonata.pdf", "application/pdf"⟩)
          (Except.ok ["pg1", "pg2"]) 5 "0.5"
          ((handleFileSelect (some ⟨"Sonata.pdf", "application/pdf"⟩)
            (Except.ok ["pg1", "pg2"]) 5 "0.5"
            (⟨View.playlists, none, [], [], false, ⟨[], []⟩⟩ : AppState)).1)).1).allMusic.map
        SheetMusic.id).Nodup) := by
  decide

/-- C6 amended: importing Sonata.pdf with two pages appends one item named
Sonata holding exactly those two pages in order, and the generated ids of
two imports differ whenever the observed clock tick or random rendering
differs. -/
theorem importItem_sonata (p₁ p₂ : String) (t t' : Nat) (r r' : String) (s : AppState) :
    ((handleFileSelect (some ⟨"Sonata.pdf", "application/pdf"⟩)
        (Except.ok [p₁, p₂]) t r s).1.allMusic
      = s.allMusic ++ [{ id := genFileId t r, name := "Sonata", pages := [p₁, p₂] }])
    ∧ ((t, r) ≠ (t', r') → genFileId t r ≠ genFileId t' r') := by
  constructor
  · rfl
  · intro hne heq
    have h2 := genFileId_inj heq
    exact hne (by rw [h2.1, h2.2])

/-- Witness for the amended C6 at concrete environment values. -/
theorem importItem_sonata_witness :
    ((handleFileSelect (some ⟨"Sonata.pdf", "application/pdf"⟩)
        (Except.ok ["pg1", "pg2"]) 5 "0.5"
        (⟨View.playlists, none, [], [], false, ⟨[], []⟩⟩ : AppState)).1.allMusic
      = [{ id := genFileId 5 "0.5", name := "Sonata", pages := ["pg1", "pg2"] }])
    ∧ genFileId 5 "0.5" ≠ genFileId 6 "0.5" :=
  ⟨(importItem_sonata "pg1" "pg2" 5 6 "0.5" "0.5"
      (⟨View.playlists, none, [], [], false, ⟨[], []⟩⟩ : AppState)).1,
   (importItem_sonata "pg1" "pg2" 5 6 "0.5" "0.5"
      (⟨View.playlists, none, [], [], false, ⟨[], []⟩⟩ : AppState)).2 (by decide)⟩

/-- C7: removing a pair that is not present leaves the state unchanged by
value; removing a present pair filters every occurrence of the id out of
the membership, and removal is idempotent. -/
theorem removeMember_correct (s : AppState) (pid fid : String) :
    ((s.playlists.map Playlist.id).Nodup →
      s.store.playlists = s.playlists →
      (∀ q ∈ s.playlists, q.id = pid → q.itemIds.contains fid = false) →
      handleRemoveFromPlaylist pid fid s = s)
    ∧ (∀ pl, s.playlists.find? (fun p => p.id == pid) = some pl →
        (handleRemoveFromPlaylist pid fid s).playlists.find? (fun p => p.id == pid)
          = some { pl with itemIds := pl.itemIds.filter (fun i => !(i == fid)) }
        ∧ (pl.itemIds.filter (fun i => !(i == fid))).contains fid = false)
    ∧ handleRemoveFromPlaylist pid fid (handleRemoveFromPlaylist pid fid s)
        = handleRemoveFromPlaylist pid fid s :=
  ⟨fun hnd hsync habs => remove_noop pid fid s hnd hsync habs,
   fun pl hfind => remove_updates pid fid s pl hfind,
   remove_idem pid fid s⟩

/-- Witness for C7: removing an absent pair at a concrete synced state. -/
theorem removeMember_correct_witness :
    handleRemoveFromPlaylist "p" "x"
        (⟨View.playlists, none, [⟨"y", "A", ["pg"]⟩], [⟨"p", "P", ["y"]⟩], false,
          ⟨[⟨"y", "A", ["pg"]⟩], [⟨"p", "P", ["y"]⟩]⟩⟩ : AppState)
      = (⟨View.playlists, none, [⟨"y", "A", ["pg"]⟩], [⟨"p", "P", ["y"]⟩], false,
          ⟨[⟨"y", "A", ["pg"]⟩], [⟨"p", "P", ["y"]⟩]⟩⟩ : AppState) :=
  (removeMember_correct
      (⟨View.playlists, none, [⟨"y", "A", ["pg"]⟩], [⟨"p", "P", ["y"]⟩], false,
        ⟨[⟨"y", "A", ["pg"]⟩], [⟨"p", "P", ["y"]⟩]⟩⟩ : AppState) "p" "x").1
    (by decide) (by decide) (by decide)

/-- C8: after creating Practice, reloading both collections from the store
yields a playlist named Practice with empty membership, which hydrates to
an empty item list. -/
theorem create_then_reload_roundTrip (s s' : AppState) (t : Nat) :
    ∃ pl ∈ (loadAll (handleCreatePlaylist "Practice" t s).store s').playlists,
      pl.name = "Practice" ∧ pl.itemIds = []
      ∧ ∃ hp ∈ hydratedPlaylists
            (loadAll (handleCreatePlaylist "Practice" t s).store s').playlists
            (loadAll (handleCreatePlaylist "Practice" t s).store s').allMusic,
          hp.name = "Practice" ∧ hp.items = [] := by
  refine ⟨{ id := genPlaylistId t, name := "Practice", itemIds := [] },
    upsert_self_mem Playlist.id s.store.playlists _, rfl, rfl, ?_⟩
  refine ⟨{ id := genPlaylistId t, name := "Practice", items := [] }, ?_, rfl, rfl⟩
  apply List.mem_map.2
  exact ⟨{ id := genPlaylistId t, name := "Practice", itemIds := [] },
    upsert_self_mem Playlist.id s.store.playlists _, rfl⟩

/-- C9: a confirmed playlist deletion removes exactly the records with that
id from the in-memory list and the store; the library collections, the
selection and the screen are untouched, and an unconfirmed deletion does
nothing. -/
theorem deletePlaylist_frame (i : String) (s : AppState) :
    (handleDeletePlaylist i true s).allMusic = s.allMusic
    ∧ (handleDeletePlaylist i true s).store.sheetMusic = s.store.sheetMusic
    ∧ (handleDeletePlaylist i true s).currentFile = s.currentFile
    ∧ (handleDeletePlaylist i true s).view = s.view
    ∧ (∀ pl, pl ∈ (handleDeletePlaylist i true s).playlists
        ↔ pl ∈ s.playlists ∧ pl.id ≠ i)
    ∧ (∀ pl, pl ∈ (handleDeletePlaylist i true s).store.playlists
        ↔ pl ∈ s.store.playlists ∧ pl.id ≠ i)
    ∧ handleDeletePlaylist i false s = s := by
  refine ⟨rfl, rfl, rfl, rfl, ?_, ?_, rfl⟩
  · intro pl
    show pl ∈ s.playlists.filter (fun q => !(q.id == i)) ↔ _
    rw [List.mem_filter]
    simp
  · intro pl
    show pl ∈ s.store.playlists.filter (fun q => !(q.id == i)) ↔ _
    rw [List.mem_filter]
    simp

/-- C10: with no item open the add-to-playlist action is a complete no-op
that reports the missing selection. -/
theorem addMember_no_selection_noop (pid : String) (s : AppState)
    (h : s.currentFile = none) :
    handleAddToPlaylist pid s = (s, AddOutcome.noCurrentFile) := by
  simp [handleAddToPlaylist, h]

/-- Witness for C10 at a concrete state with no open item. -/
theorem addMember_no_selection_noop_witness :
    handleAddToPlaylist "p"
        (⟨View.playlists, none, [], [⟨"p", "P", []⟩], false, ⟨[], [⟨"p", "P", []⟩]⟩⟩ : AppState)
      = ((⟨View.playlists, none, [], [⟨"p", "P", []⟩], false, ⟨[], [⟨"p", "P", []⟩]⟩⟩ : AppState),
          AddOutcome.noCurrentFile) :=
  addMember_no_selection_noop "p"
    (⟨View.playlists, none, [], [⟨"p", "P", []⟩], false, ⟨[], [⟨"p", "P", []⟩]⟩⟩ : AppState) rfl

end Songbook
